import Mathlib

/-!
Verification of the FSA simulator study application: a shallow embedding of
the topic-tree selection engine, the AI-response contract validator, the
assessment question-bank selector, answer grading and history persistence,
together with theorems settling the specification's claims about them.

The source keeps selected topic titles in a JavaScript `Set<string>`, an
insertion-ordered duplicate-free collection: it is modelled as a
duplicate-free `List String`. The recursions that the source performs
through the parent/children lookup maps are modelled with an explicit
fuel parameter; any fuel above the number of map entries computes the
same result as the source (the concrete instances use 100).
-/

/-- A node of the static curriculum tree (`CourseTopic` in `types.ts`):
an identifier, a display title and the list of sub-topics. -/
inductive CourseTopic where
  | node (ident : String) (title : String) (subTopics : List CourseTopic)

def CourseTopic.title : CourseTopic → String
  | .node _ t _ => t

def CourseTopic.ident : CourseTopic → String
  | .node i _ _ => i

def CourseTopic.subTopics : CourseTopic → List CourseTopic
  | .node _ _ s => s

/-- Shorthand for a leaf topic (no sub-topics). -/
def leafTopic (i t : String) : CourseTopic := .node i t []

/-- The static curriculum (`curriculumTopics` in `data/courseData.ts`). -/
def curriculumTopics : List CourseTopic := [
  .node "part-i" "PART I: THE NEED FOR SUSTAINABILITY DISCLOSURE STANDARDS" [
    .node "1" "1. Demand for Sustainability Information" [
      leafTopic "1.1" "1.1. What is sustainability?",
      leafTopic "1.2" "1.2. Growing investor demand",
      leafTopic "1.3" "1.3. Demand within companies",
      leafTopic "1.4" "1.4. Other institutions driving demand"],
    .node "2" "2. The Historical Basis for Disclosure" [
      leafTopic "2.1" "2.1. The aftermath of the stock market crash of 1929",
      leafTopic "2.2" "2.2. Disclosure as the basis of regulatory reform",
      leafTopic "2.3" "2.3. The road to standardized accounting procedures"],
    .node "3" "3. Materiality: a guiding principle for required disclosure" [
      leafTopic "3.1" "3.1. A long-standing legacy of investor decision-making",
      leafTopic "3.2" "3.2. General characteristics of materiality",
      leafTopic "3.3" "3.3. Materiality changes over time",
      leafTopic "3.4" "3.4. Nuances throughout the disclosure ecosystem"],
    .node "4" "4. The limitations of financial disclosure" [
      leafTopic "4.1" "4.1. Financial information beyond financial statements: the use of non-GAAP",
      leafTopic "4.2" "4.2. The changing nature of market value",
      leafTopic "4.3" "4.3. The scope of financial reporting expands",
      leafTopic "4.4" "4.4. New tools for investors"]],
  .node "part-ii" "PART II: THE SUSTAINABILITY INFORMATION ECOSYSTEM" [
    .node "5" "5. Introduction to the sustainability information value chain and the role of data providers" [
      leafTopic "5.1" "5.1. Growth of the ecosystem: a maturing industry",
      leafTopic "5.2" "5.2. The role of data providers",
      leafTopic "5.3" "5.3. Sustainability data’s unique challenges"],
    .node "6" "6. The Role of Standards And Frameworks: From Fragmentation to Cohesion in Sustainability Disclosure" [
      leafTopic "6.1" "6.1. The role of standard-setters",
      leafTopic "6.2" "6.2. Formative standards and frameworks",
      leafTopic "6.3" "6.3. Distinguishing characteristics of sustainability disclosure guidance",
      leafTopic "6.4" "6.4. Creating a coherent system for comprehensive reporting – simplification through consolidation"],
    .node "7" "7. Materiality: going beyond investors" [
      leafTopic "7.1" "7.1. Materiality applied to sustainability disclosure",
      leafTopic "7.2" "7.2. Materiality in the IFRS Sustainability Disclosure Standards",
      leafTopic "7.3" "7.3. Materiality in the GRI Standards",
      leafTopic "7.4" "7.4. Materiality in the European Sustainability Reporting Standards",
      leafTopic "7.5" "7.5. Process vs. outcomes"],
    .node "8" "8. Sustainability disclosure across jurisdictions" [
      leafTopic "8.1" "8.1. The relationship between standard-setters and regulators",
      leafTopic "8.2" "8.2. The growing prevalence of regulatory disclosure guidance",
      leafTopic "8.3" "8.3. Common types of sustainability reporting rules",
      leafTopic "8.4" "8.4. Types of guidance shaping global disclosure rules",
      leafTopic "8.5" "8.5. The influence of corporate governance codes",
      leafTopic "8.6" "8.6. Balancing flexible implementation with usable information"]],
  .node "part-iii" "PART III: UNDERSTANDING IFRS SUSTAINABILITY DISCLOSURE STANDARDS" [
    .node "9" "9. What is useful sustainability-related financial information?" [
      leafTopic "9.1" "9.1. The importance of standards",
      leafTopic "9.2" "9.2. Sustainability: a unique context",
      leafTopic "9.3" "9.3. The goals of the International Sustainability Standards Board",
      leafTopic "9.4" "9.4. Additional characteristics of the IFRS Sustainability Disclosure Standards",
      leafTopic "9.5" "9.5. The primary objective of the IFRS Sustainability Disclosure Standards"],
    .node "10" "10. The IFRS Sustainability Disclosure Standards" [
      leafTopic "10.1" "10.1. Core content",
      leafTopic "10.2" "10.2. Conceptual foundations",
      leafTopic "10.3" "10.3. Determining what information to disclose"],
    .node "11" "11. Setting IFRS Sustainability Disclosure Standards" [
      leafTopic "11.1" "11.1. The structure of the IFRS Foundation",
      leafTopic "11.2" "11.2. Developing the first IFRS Sustainability Disclosure Standards",
      leafTopic "11.3" "11.3. Maintaining the SASB Standards",
      leafTopic "11.4" "11.4. The initial development of the TCFD Framework"],
    .node "12" "12. How companies disclose sustainability-related financial information" [
      leafTopic "12.1" "12.1. Introduction to sample disclosures",
      leafTopic "12.2" "12.2. Why do companies disclose investor-focused sustainability information?",
      leafTopic "12.3" "12.3. Where do companies disclose investor-focused sustainability information?",
      leafTopic "12.4" "12.4. What investor-focused sustainability information are companies reporting?",
      leafTopic "12.5" "12.5. How is investor-focused sustainability information being disclosed?"]],
  .node "part-iv" "PART IV: CORPORATE AND INVESTOR USE: GOING BEYOND DISCLOSURE" [
    .node "13" "13. A closer look: investor demand for sustainability information" [
      leafTopic "13.1" "13.1. A global call for enhanced disclosure",
      leafTopic "13.2" "13.2. A shift in market paradigms",
      leafTopic "13.3" "13.3. Companies come to call"],
    .node "14" "14. Considerations for corporate use" [
      leafTopic "14.1" "14.1. Business roles applicable to sustainability disclosure",
      leafTopic "14.2" "14.2. Preparing for disclosure",
      leafTopic "14.3" "14.3. Preparing quality data",
      leafTopic "14.4" "14.4. Reporting material sustainability data",
      leafTopic "14.5" "14.5. Managing sustainability performance"],
    .node "15" "15. Considerations for investor use" [
      leafTopic "15.1" "15.1. Overview of sustainability in investing",
      leafTopic "15.2" "15.2. A Spectrum of the use of sustainability information",
      leafTopic "15.3" "15.3. Investor application of cross-industry vs. industry-specific sustainability data",
      leafTopic "15.4" "15.4. The pre-investment stage",
      leafTopic "15.5" "15.5. Index construction and sector allocation",
      leafTopic "15.6" "15.6. Post-investment engagement",
      leafTopic "15.7" "15.7. Investor reporting",
      leafTopic "15.8" "15.8. Creating an effective framework",
      leafTopic "15.9" "15.9. Data is the backbone"]]]

/-- One record of the lookup tables built by `traverse` in
`HomePage.tsx` (one `pMap`/`cMap`/`partMap` entry for a visited title). -/
structure TopicEntry where
  title : String
  parent : Option String
  children : List String
  part : String

mutual

/-- The `traverse` walk of `HomePage.tsx` (lines 161-171): records for one
node and its whole subtree, with the given parent title and part id. -/
def traverseEntries (partId : String) (parentT : Option String) : CourseTopic → List TopicEntry
  | .node _ title subs =>
    ⟨title, parentT, subs.map CourseTopic.title, partId⟩ ::
      traverseEntriesList partId (some title) subs

def traverseEntriesList (partId : String) (parentT : Option String) : List CourseTopic → List TopicEntry
  | [] => []
  | c :: cs => traverseEntries partId parentT c ++ traverseEntriesList partId parentT cs

end

/-- The full lookup table: `traverse` is started at each part's chapters
with a `null` parent (HomePage.tsx lines 172-174), so the four part nodes
themselves receive no entry. -/
def curriculumEntries : List TopicEntry :=
  curriculumTopics.flatMap fun part =>
    part.subTopics.flatMap fun topic => traverseEntries part.ident none topic

def findEntry (title : String) : Option TopicEntry :=
  curriculumEntries.find? fun e => e.title = title

/-- `childrenMap.get(t) || []`. -/
def curriculumChildren (title : String) : List String :=
  ((findEntry title).map TopicEntry.children).getD []

/-- `parentMap.get(t)` (absent keys and stored `null` both behave as "no
parent" at the use sites). -/
def curriculumParent (title : String) : Option String :=
  ((findEntry title).map TopicEntry.parent).getD none

/-- `topicToPartMap.get(t)`. -/
def curriculumPart (title : String) : Option String :=
  (findEntry title).map TopicEntry.part


/-- A JavaScript `Set<string>` is an insertion-ordered, duplicate-free
collection; it is modelled as a duplicate-free `List String`.
`jsSetOf` is `new Set(array)`: keep the first occurrence of each element. -/
def jsSetOf : List String → List String
  | [] => []
  | t :: ts => t :: (jsSetOf ts).filter fun x => x ≠ t

/-- `set.add(t)` (a no-op when present, else appended at the end). -/
def setAdd (s : List String) (t : String) : List String :=
  if t ∈ s then s else s ++ [t]

/-- `set.delete(t)` (on a duplicate-free list, removing every occurrence
removes exactly the element). -/
def setDelete (s : List String) (t : String) : List String :=
  s.filter fun x => x ≠ t

/-- The `updateChildren` recursion of `handleTopicChange` (HomePage.tsx
lines 220-226), processing a work list of titles depth-first: each title is
added to / removed from the selected set and its children (looked up in the
children map) are processed next. The fuel bounds the number of recursion
steps; any fuel above the size of the toggled subtree computes the
source's result. -/
def updateChildrenFrom (children : String → List String) : Nat → List String → Bool → List String → List String
  | 0, _, _, s => s
  | _ + 1, [], _, s => s
  | fuel + 1, title :: rest, select, s =>
    updateChildrenFrom children fuel rest select
      (updateChildrenFrom children fuel (children title) select
        (if select then setAdd s title else setDelete s title))

/-- The `updateParents` walk of `handleTopicChange` (HomePage.tsx lines
228-246): look up the toggled title's parent; when checking, select it
only if all of its children are now selected and continue upward; when
unchecking, deselect it if it was selected and continue upward. -/
def updateParents (parent : String → Option String) (children : String → List String)
    (checked : Bool) : Nat → String → List String → List String
  | 0, _, s => s
  | fuel + 1, title, s =>
    match parent title with
    | none => s
    | some parentTitle =>
      match checked with
      | true =>
        if (children parentTitle).all (fun t => decide (t ∈ s)) then
          updateParents parent children checked fuel parentTitle (setAdd s parentTitle)
        else s
      | false =>
        if parentTitle ∈ s then
          updateParents parent children checked fuel parentTitle (setDelete s parentTitle)
        else s

/-- The set computed by a toggle before the empty-set guard:
child propagation followed by the parent walk, starting from
`new Set(prev.topics)`. -/
def propagateToggle (parent : String → Option String) (children : String → List String)
    (fuel : Nat) (title : String) (checked : Bool) (prev : List String) : List String :=
  updateParents parent children checked fuel title
    (updateChildrenFrom children fuel [title] checked (jsSetOf prev))

/-- `handleTopicChange` (HomePage.tsx lines 215-253): propagate the toggle,
then reject it (returning the prior topics unchanged) if the resulting
topic set would be empty. -/
def handleTopicChange (parent : String → Option String) (children : String → List String)
    (fuel : Nat) (title : String) (checked : Bool) (prev : List String) : List String :=
  let s2 := propagateToggle parent children fuel title checked prev
  if s2.length = 0 then prev else s2

/-- The leaf filter applied when a generator-mode run starts
(HomePage.tsx line 407): keep only selected titles with no children. -/
def leafFilter (children : String → List String) (topics : List String) : List String :=
  topics.filter fun t => (children t).length = 0

/-- The pre-flight part of `handleStartQuiz` (HomePage.tsx lines 397-420):
with an empty leaf-filtered topic set the run is stopped with a local
validation error and no generation request is made; otherwise the leaf
topics are passed on to generation. -/
def handleStartQuizPre (children : String → List String) (topics : List String) :
    Except String (List String) :=
  let finalTopics := leafFilter children topics
  if finalTopics.length = 0 then
    .error "Please select at least one specific sub-topic to generate questions."
  else
    .ok finalTopics

/-- The non-leaf topics that receive entries in the lookup maps: the
chapters of the four parts (`traverse` starts below the part nodes). -/
def curriculumChapters : List CourseTopic :=
  curriculumTopics.flatMap CourseTopic.subTopics

theorem jsSetOf_mem (x : String) (l : List String) : x ∈ jsSetOf l ↔ x ∈ l := by
  induction l with
  | nil => exact Iff.rfl
  | cons t ts ih =>
    by_cases hx : x = t
    · subst hx; simp [jsSetOf]
    · simp [jsSetOf, List.mem_filter, hx, ih]

theorem setAdd_mem_of_mem {s : List String} {t x : String} (h : x ∈ s) : x ∈ setAdd s t := by
  unfold setAdd; split <;> simp [h]

theorem setAdd_mem_self (s : List String) (t : String) : t ∈ setAdd s t := by
  unfold setAdd; split
  · assumption
  · simp

theorem setDelete_not_mem_self (s : List String) (t : String) : t ∉ setDelete s t := by
  simp [setDelete, List.mem_filter]

theorem setDelete_not_mem {s : List String} {t x : String} (h : x ∉ s) : x ∉ setDelete s t :=
  fun hmem => h (List.mem_of_mem_filter hmem)

theorem updateChildrenFrom_true_mono (ch : String → List String) :
    ∀ (fuel : Nat) (wl s : List String) (x : String),
      x ∈ s → x ∈ updateChildrenFrom ch fuel wl true s := by
  intro fuel
  induction fuel with
  | zero => intro wl s x h; simpa [updateChildrenFrom] using h
  | succ n ih =>
    intro wl s x h
    cases wl with
    | nil => simpa [updateChildrenFrom] using h
    | cons t rest =>
      simp only [updateChildrenFrom, if_pos]
      exact ih _ _ _ (ih _ _ _ (setAdd_mem_of_mem h))

theorem updateChildrenFrom_true_head (ch : String → List String)
    (fuel : Nat) (t : String) (rest s : List String) :
    t ∈ updateChildrenFrom ch (fuel + 1) (t :: rest) true s := by
  simp only [updateChildrenFrom, if_pos]
  exact updateChildrenFrom_true_mono ch _ _ _ _
    (updateChildrenFrom_true_mono ch _ _ _ _ (setAdd_mem_self s t))

theorem updateParents_true_mono (pa : String → Option String) (ch : String → List String) :
    ∀ (fuel : Nat) (title : String) (s : List String) (x : String),
      x ∈ s → x ∈ updateParents pa ch true fuel title s := by
  intro fuel
  induction fuel with
  | zero => intro title s x h; simpa [updateParents] using h
  | succ n ih =>
    intro title s x h
    simp only [updateParents]
    cases pa title with
    | none => simpa using h
    | some p =>
      simp only
      split
      · exact ih _ _ _ (setAdd_mem_of_mem h)
      · exact h

theorem updateParents_true_parent (pa : String → Option String) (ch : String → List String)
    (fuel : Nat) (title : String) (s : List String) (pTitle : String)
    (hp : pa title = some pTitle) (hall : ∀ c ∈ ch pTitle, c ∈ s) :
    pTitle ∈ updateParents pa ch true (fuel + 1) title s := by
  simp only [updateParents, hp]
  rw [if_pos]
  · exact updateParents_true_mono pa ch _ _ _ _ (setAdd_mem_self s pTitle)
  · simpa [List.all_eq_true] using hall

theorem updateParents_false_not_mem (pa : String → Option String) (ch : String → List String) :
    ∀ (fuel : Nat) (title : String) (s : List String) (x : String),
      x ∉ s → x ∉ updateParents pa ch false fuel title s := by
  intro fuel
  induction fuel with
  | zero => intro title s x h; simpa [updateParents] using h
  | succ n ih =>
    intro title s x h
    simp only [updateParents]
    cases pa title with
    | none => simpa using h
    | some p =>
      simp only
      split
      · exact ih _ _ _ (setDelete_not_mem h)
      · exact h

theorem handleToggle_eq_of_mem (pa : String → Option String) (ch : String → List String)
    (fuel : Nat) (title : String) (checked : Bool) (prev : List String) (x : String)
    (hx : x ∈ propagateToggle pa ch fuel title checked prev) :
    handleTopicChange pa ch fuel title checked prev =
      propagateToggle pa ch fuel title checked prev := by
  unfold handleTopicChange
  rw [if_neg]
  simpa [List.length_eq_zero] using List.ne_nil_of_mem hx

theorem handleToggle_true_mono (pa : String → Option String) (ch : String → List String)
    (fuel : Nat) (title : String) (prev : List String) (x : String) (h : x ∈ prev) :
    x ∈ handleTopicChange pa ch (fuel + 1) title true prev := by
  have hx : x ∈ propagateToggle pa ch (fuel + 1) title true prev :=
    updateParents_true_mono pa ch _ _ _ _
      (updateChildrenFrom_true_mono ch _ _ _ _ ((jsSetOf_mem x prev).mpr h))
  rw [handleToggle_eq_of_mem pa ch _ _ _ _ x hx]
  exact hx

theorem handleToggle_true_self (pa : String → Option String) (ch : String → List String)
    (fuel : Nat) (title : String) (prev : List String) :
    title ∈ handleTopicChange pa ch (fuel + 1) title true prev := by
  have hx : title ∈ propagateToggle pa ch (fuel + 1) title true prev :=
    updateParents_true_mono pa ch _ _ _ _
      (updateChildrenFrom_true_head ch _ _ _ _)
  rw [handleToggle_eq_of_mem pa ch _ _ _ _ title hx]
  exact hx

theorem toggleFold_mem (pa : String → Option String) (ch : String → List String) (fuel : Nat) :
    ∀ (l s0 : List String),
      (∀ x ∈ s0, x ∈ l.foldl (fun s t => handleTopicChange pa ch (fuel + 1) t true s) s0) ∧
      (∀ t ∈ l, t ∈ l.foldl (fun s t => handleTopicChange pa ch (fuel + 1) t true s) s0) := by
  intro l
  induction l with
  | nil => intro s0; exact ⟨fun x hx => hx, by simp⟩
  | cons t ts ih =>
    intro s0
    simp only [List.foldl_cons]
    refine ⟨fun x hx => ?_, fun u hu => ?_⟩
    · exact (ih _).1 x (handleToggle_true_mono pa ch fuel t s0 x hx)
    · rcases List.mem_cons.mp hu with h | h
      · subst h
        exact (ih _).1 u (handleToggle_true_self pa ch fuel u s0)
      · exact (ih _).2 u h

theorem updateParents_at_100 (pa : String → Option String) (ch : String → List String)
    (checked : Bool) (title : String) (s : List String) :
    updateParents pa ch checked 100 title s =
      match pa title with
      | none => s
      | some p =>
        match checked with
        | true =>
          if (ch p).all (fun t => decide (t ∈ s)) then
            updateParents pa ch checked 99 p (setAdd s p)
          else s
        | false =>
          if p ∈ s then updateParents pa ch checked 99 p (setDelete s p)
          else s := rfl

theorem chapterMapFacts :
    ∀ tt ∈ curriculumChapters.map CourseTopic.title,
      curriculumChildren tt ≠ [] ∧
      ∀ c ∈ curriculumChildren tt, curriculumParent c = some tt := by
  decide

/-- C1: a generator-mode topic toggle never leaves the selected-topic set
empty: starting from a non-empty prior selection the result is non-empty,
and whenever the propagated set would be empty the toggle is rejected and
the prior topics are returned unchanged. -/
theorem topicToggle_never_empty (pa : String → Option String) (ch : String → List String)
    (fuel : Nat) (title : String) (checked : Bool) (prev : List String) (hprev : prev ≠ []) :
    handleTopicChange pa ch fuel title checked prev ≠ [] ∧
    (propagateToggle pa ch fuel title checked prev = [] →
      handleTopicChange pa ch fuel title checked prev = prev) := by
  have hdef : handleTopicChange pa ch fuel title checked prev =
      if (propagateToggle pa ch fuel title checked prev).length = 0 then prev
      else propagateToggle pa ch fuel title checked prev := rfl
  rw [hdef]
  by_cases h : (propagateToggle pa ch fuel title checked prev).length = 0
  · rw [if_pos h]
    exact ⟨hprev, fun _ => rfl⟩
  · rw [if_neg h]
    refine ⟨fun he => h (by rw [he]; rfl), fun h2 => absurd (by rw [h2]; rfl) h⟩

theorem topicToggle_never_empty_witness :
    handleTopicChange curriculumParent curriculumChildren 100
        "2.1. The aftermath of the stock market crash of 1929" false
        ["2. The Historical Basis for Disclosure",
         "2.1. The aftermath of the stock market crash of 1929"] ≠ [] ∧
    handleTopicChange curriculumParent curriculumChildren 100
        "2.1. The aftermath of the stock market crash of 1929" false
        ["2. The Historical Basis for Disclosure",
         "2.1. The aftermath of the stock market crash of 1929"] =
      ["2. The Historical Basis for Disclosure",
       "2.1. The aftermath of the stock market crash of 1929"] :=
  ⟨(topicToggle_never_empty curriculumParent curriculumChildren 100
      "2.1. The aftermath of the stock market crash of 1929" false
      ["2. The Historical Basis for Disclosure",
       "2.1. The aftermath of the stock market crash of 1929"] (by decide)).1,
   (topicToggle_never_empty curriculumParent curriculumChildren 100
      "2.1. The aftermath of the stock market crash of 1929" false
      ["2. The Historical Basis for Disclosure",
       "2.1. The aftermath of the stock market crash of 1929"] (by decide)).2 (by decide)⟩

/-- C2 (counterexample): the claim fails on the code in two ways.
First, the four part nodes are non-leaf topics of the curriculum tree but
`traverse` never enters them into the parent map, so checking every
chapter of PART I (its direct children, one at a time, starting from the
app's initial selection) does not select PART I. Second, unchecking the
selected child "2.1" of the selected chapter "2" when nothing else is
selected empties the propagated set, so the toggle is rejected and the
chapter stays selected instead of being removed. -/
theorem topicToggle_parent_inference_cx :
    (curriculumTopics.map CourseTopic.title).head? =
      some "PART I: THE NEED FOR SUSTAINABILITY DISCLOSURE STANDARDS" ∧
    (curriculumTopics.head?).map (fun p => p.subTopics.map CourseTopic.title) =
      some ["1. Demand for Sustainability Information",
            "2. The Historical Basis for Disclosure",
            "3. Materiality: a guiding principle for required disclosure",
            "4. The limitations of financial disclosure"] ∧
    "PART I: THE NEED FOR SUSTAINABILITY DISCLOSURE STANDARDS" ∉
      (["1. Demand for Sustainability Information",
        "2. The Historical Basis for Disclosure",
        "3. Materiality: a guiding principle for required disclosure",
        "4. The limitations of financial disclosure"].foldl
        (fun s t => handleTopicChange curriculumParent curriculumChildren 100 t true s)
        ["1. Demand for Sustainability Information"]) ∧
    curriculumParent "2.1. The aftermath of the stock market crash of 1929" =
      some "2. The Historical Basis for Disclosure" ∧
    "2.1. The aftermath of the stock market crash of 1929" ∈
      (["2. The Historical Basis for Disclosure",
        "2.1. The aftermath of the stock market crash of 1929"] : List String) ∧
    handleTopicChange curriculumParent curriculumChildren 100
        "2.1. The aftermath of the stock market crash of 1929" false
        ["2. The Historical Basis for Disclosure",
         "2.1. The aftermath of the stock market crash of 1929"] =
      ["2. The Historical Basis for Disclosure",
       "2.1. The aftermath of the stock market crash of 1929"] := by
  exact ⟨rfl, rfl, by decide, by decide, by decide, by decide⟩

/-- C2 (amended): for every non-leaf topic that is entered into the
parent/children lookup maps (the fifteen chapters; the four part nodes are
excluded by `traverse`), checking its direct children one at a time in any
order results in the chapter being selected, and unchecking one of its
children removes the chapter from the selection whenever the toggle is not
rejected by the empty-set guard. -/
theorem topicToggle_parent_inference :
    ∀ tt ∈ curriculumChapters.map CourseTopic.title,
      (∀ l : List String, l.Perm (curriculumChildren tt) → ∀ s0 : List String,
        tt ∈ l.foldl
          (fun s t => handleTopicChange curriculumParent curriculumChildren 100 t true s) s0) ∧
      (∀ c ∈ curriculumChildren tt, ∀ prev : List String,
        (propagateToggle curriculumParent curriculumChildren 100 c false prev).length ≠ 0 →
        tt ∉ handleTopicChange curriculumParent curriculumChildren 100 c false prev) := by
  intro tt htt
  obtain ⟨hne, hpar⟩ := chapterMapFacts tt htt
  constructor
  · intro l hperm s0
    have hlne : l ≠ [] := by
      intro h
      subst h
      exact hne (hperm.symm.eq_nil)
    rcases (List.eq_nil_or_concat l).resolve_left hlne with ⟨l', tl, rfl⟩
    rw [List.concat_eq_append] at hperm
    rw [List.concat_eq_append, List.foldl_append, List.foldl_cons, List.foldl_nil]
    set s : List String :=
      l'.foldl (fun s t => handleTopicChange curriculumParent curriculumChildren 100 t true s) s0
        with hs
    have htl : tl ∈ l' ++ [tl] := by simp
    have htlc : curriculumParent tl = some tt :=
      hpar tl (hperm.mem_iff.mp htl)
    have hall : ∀ c ∈ curriculumChildren tt,
        c ∈ updateChildrenFrom curriculumChildren 100 [tl] true (jsSetOf s) := by
      intro c hc
      rcases List.mem_append.mp (hperm.mem_iff.mpr hc) with hcl | hctl
      · have hcs : c ∈ s := (toggleFold_mem curriculumParent curriculumChildren 99 l' s0).2 c hcl
        exact updateChildrenFrom_true_mono curriculumChildren _ _ _ _ ((jsSetOf_mem c s).mpr hcs)
      · have : c = tl := by simpa using hctl
        subst this
        exact updateChildrenFrom_true_head curriculumChildren 99 c [] (jsSetOf s)
    have hprop : tt ∈ propagateToggle curriculumParent curriculumChildren 100 tl true s := by
      unfold propagateToggle
      exact updateParents_true_parent curriculumParent curriculumChildren 99 tl _ tt htlc hall
    rw [handleToggle_eq_of_mem curriculumParent curriculumChildren 100 tl true s tt hprop]
    exact hprop
  · intro c hc prev hlen
    have hres : handleTopicChange curriculumParent curriculumChildren 100 c false prev =
        propagateToggle curriculumParent curriculumChildren 100 c false prev := by
      unfold handleTopicChange
      rw [if_neg hlen]
    rw [hres]
    unfold propagateToggle
    set s1 : List String :=
      updateChildrenFrom curriculumChildren 100 [c] false (jsSetOf prev) with hs1
    show tt ∉ updateParents curriculumParent curriculumChildren false 100 c s1
    rw [updateParents_at_100, hpar c hc]
    show tt ∉ if tt ∈ s1 then
        updateParents curriculumParent curriculumChildren false 99 tt (setDelete s1 tt)
      else s1
    by_cases hm : tt ∈ s1
    · rw [if_pos hm]
      exact updateParents_false_not_mem curriculumParent curriculumChildren 99 tt _ tt
        (setDelete_not_mem_self s1 tt)
    · rw [if_neg hm]
      exact hm

theorem topicToggle_parent_inference_witness :
    "2. The Historical Basis for Disclosure" ∈
      (["2.2. Disclosure as the basis of regulatory reform",
        "2.1. The aftermath of the stock market crash of 1929",
        "2.3. The road to standardized accounting procedures"].foldl
        (fun s t => handleTopicChange curriculumParent curriculumChildren 100 t true s) []) ∧
    "2. The Historical Basis for Disclosure" ∉
      handleTopicChange curriculumParent curriculumChildren 100
        "2.1. The aftermath of the stock market crash of 1929" false
        ["2. The Historical Basis for Disclosure",
         "2.1. The aftermath of the stock market crash of 1929",
         "2.2. Disclosure as the basis of regulatory reform"] :=
  ⟨(topicToggle_parent_inference "2. The Historical Basis for Disclosure" (by decide)).1
      ["2.2. Disclosure as the basis of regulatory reform",
       "2.1. The aftermath of the stock market crash of 1929",
       "2.3. The road to standardized accounting procedures"] (by decide) [],
   (topicToggle_parent_inference "2. The Historical Basis for Disclosure" (by decide)).2
      "2.1. The aftermath of the stock market crash of 1929" (by decide)
      ["2. The Historical Basis for Disclosure",
       "2.1. The aftermath of the stock market crash of 1929",
       "2.2. Disclosure as the basis of regulatory reform"] (by decide)⟩

/-- C7: when a generator-mode run starts, the leaf-filtered selected-topic
set being empty is exactly the case in which a user-facing validation
error is returned (and the generation loop is never reached); a successful
pre-flight yields the non-empty leaf-filtered topic list that is sent to
generation. -/
theorem startQuiz_leaf_guard (ch : String → List String) (topics : List String) :
    (leafFilter ch topics = [] ↔
      handleStartQuizPre ch topics =
        .error "Please select at least one specific sub-topic to generate questions.") ∧
    ∀ l, handleStartQuizPre ch topics = .ok l → l = leafFilter ch topics ∧ l ≠ [] := by
  unfold handleStartQuizPre
  constructor
  · constructor
    · intro h
      rw [if_pos]
      rw [h]
      rfl
    · intro h
      by_cases hl : (leafFilter ch topics).length = 0
      · exact List.length_eq_zero.mp hl
      · rw [if_neg hl] at h
        exact absurd h (by simp)
  · intro l hl
    by_cases hc : (leafFilter ch topics).length = 0
    · rw [if_pos hc] at hl
      exact absurd hl (by simp)
    · rw [if_neg hc] at hl
      injection hl with h
      subst h
      exact ⟨rfl, fun he => hc (by simp [he])⟩

theorem startQuiz_leaf_guard_witness :
    handleStartQuizPre curriculumChildren ["1. Demand for Sustainability Information"] =
      .error "Please select at least one specific sub-topic to generate questions." ∧
    (["1.1. What is sustainability?"] =
        leafFilter curriculumChildren ["1.1. What is sustainability?"] ∧
      (["1.1. What is sustainability?"] : List String) ≠ []) :=
  ⟨(startQuiz_leaf_guard curriculumChildren
      ["1. Demand for Sustainability Information"]).1.mp (by decide),
   (startQuiz_leaf_guard curriculumChildren ["1.1. What is sustainability?"]).2
      ["1.1. What is sustainability?"] (by rfl)⟩

/-!
JSON model. The raw text returned by the model is a JavaScript string,
modelled as `List Char`; `JSON.parse` is modelled by `parseJson` below, a
fuel-driven recursive-descent parser over a `Json` value tree. Numbers
are modelled as integers (the claims under verification involve none of
the fractional forms) and string escapes cover the common single-letter
escapes. Literal brace characters are written via `Char.ofNat`.
-/

/-- A parsed JSON value. -/
inductive Json where
  | null
  | bool (b : Bool)
  | num (n : Int)
  | str (s : List Char)
  | arr (elems : List Json)
  | obj (members : List (List Char × Json))

def braceOpenChar : Char := Char.ofNat 123

def braceCloseChar : Char := Char.ofNat 125

def skipWs : List Char → List Char
  | [] => []
  | c :: cs => if c = ' ' ∨ c = '\n' ∨ c = '\t' ∨ c = '\r' then skipWs cs else c :: cs

def escChar (c : Char) : Option Char :=
  if c = '"' then some '"'
  else if c = '\\' then some '\\'
  else if c = '/' then some '/'
  else if c = 'n' then some '\n'
  else if c = 't' then some '\t'
  else if c = 'r' then some '\r'
  else if c = 'b' then some (Char.ofNat 8)
  else if c = 'f' then some (Char.ofNat 12)
  else none

/-- Parse the body of a JSON string literal (the opening quote already
consumed); returns the decoded characters and the rest of the input. -/
def parseStringBody : List Char → Option (List Char × List Char)
  | [] => none
  | c :: cs =>
    if c = '"' then some ([], cs)
    else if c = '\\' then
      match cs with
      | [] => none
      | e :: cs2 => do
        let ec ← escChar e
        let (s, r) ← parseStringBody cs2
        pure (ec :: s, r)
    else do
      let (s, r) ← parseStringBody cs
      pure (c :: s, r)

def takeDigits : List Char → Nat → Nat × List Char
  | [], acc => (acc, [])
  | c :: cs, acc =>
    if c.isDigit then takeDigits cs (acc * 10 + (c.toNat - 48)) else (acc, c :: cs)

mutual

/-- Parse one JSON value starting at the input (leading whitespace
allowed); the fuel decreases at every step. -/
def parseValue : Nat → List Char → Option (Json × List Char)
  | 0, _ => none
  | fuel + 1, cs =>
    match skipWs cs with
    | [] => none
    | c :: rest =>
      if c = braceOpenChar then
        match skipWs rest with
        | [] => none
        | c2 :: rest2 =>
          if c2 = braceCloseChar then some (.obj [], rest2)
          else parseFirstMember fuel (c2 :: rest2)
      else if c = '[' then
        match skipWs rest with
        | [] => none
        | c2 :: rest2 =>
          if c2 = ']' then some (.arr [], rest2)
          else do
            let (v, r) ← parseValue fuel (c2 :: rest2)
            let (vs, r2) ← parseArrayTail fuel r
            pure (.arr (v :: vs), r2)
      else if c = '"' then
        (parseStringBody rest).map fun p => (.str p.1, p.2)
      else if c = '-' then
        match rest with
        | [] => none
        | d :: ds =>
          if d.isDigit then
            let p := takeDigits (d :: ds) 0
            some (.num (-(p.1 : Int)), p.2)
          else none
      else if c.isDigit then
        let p := takeDigits (c :: rest) 0
        some (.num (p.1 : Int), p.2)
      else
        match c :: rest with
        | 'n' :: 'u' :: 'l' :: 'l' :: r => some (.null, r)
        | 't' :: 'r' :: 'u' :: 'e' :: r => some (.bool true, r)
        | 'f' :: 'a' :: 'l' :: 's' :: 'e' :: r => some (.bool false, r)
        | _ => none

/-- Parse the members of a non-empty object, positioned at the first
member. -/
def parseFirstMember : Nat → List Char → Option (Json × List Char)
  | 0, _ => none
  | fuel + 1, cs => do
    let (kv, r) ← parseMember fuel cs
    let (kvs, r2) ← parseObjTail fuel r
    pure (.obj (kv :: kvs), r2)

/-- Parse one `"key": value` member. -/
def parseMember : Nat → List Char → Option ((List Char × Json) × List Char)
  | 0, _ => none
  | fuel + 1, cs =>
    match skipWs cs with
    | [] => none
    | c :: rest =>
      if c = '"' then do
        let (k, r) ← parseStringBody rest
        match skipWs r with
        | ':' :: r2 => do
          let (v, r3) ← parseValue fuel r2
          pure ((k, v), r3)
        | _ => none
      else none

/-- After a member: either the object closes or a comma introduces the
next member. -/
def parseObjTail : Nat → List Char → Option (List (List Char × Json) × List Char)
  | 0, _ => none
  | fuel + 1, cs =>
    match skipWs cs with
    | [] => none
    | c :: rest =>
      if c = braceCloseChar then some ([], rest)
      else if c = ',' then do
        let (kv, r) ← parseMember fuel rest
        let (kvs, r2) ← parseObjTail fuel r
        pure (kv :: kvs, r2)
      else none

/-- After an array element: either the array closes or a comma introduces
the next element. -/
def parseArrayTail : Nat → List Char → Option (List Json × List Char)
  | 0, _ => none
  | fuel + 1, cs =>
    match skipWs cs with
    | [] => none
    | c :: rest =>
      if c = ']' then some ([], rest)
      else if c = ',' then do
        let (v, r) ← parseValue fuel rest
        let (vs, r2) ← parseArrayTail fuel r
        pure (v :: vs, r2)
      else none

end

/-- `JSON.parse`: the whole input (up to trailing whitespace) must form a
single JSON value. -/
def parseJson (cs : List Char) : Option Json :=
  match parseValue (2 * cs.length + 2) cs with
  | some (j, rest) => if skipWs rest = [] then some j else none
  | none => none

/-- The recovery regex of `generateQuestionFromContext`
(`raw.match(/\x7b[\s\S]*\x7d$/)`, geminiService.ts line 289): it matches
exactly when the text contains an opening brace and ends with a closing
brace, and the match runs from the first opening brace to the end of the
text. -/
def braceMatch (cs : List Char) : Option (List Char) :=
  if braceOpenChar ∈ cs ∧ cs.getLast? = some braceCloseChar then
    some (cs.drop (cs.findIdx fun c => c = braceOpenChar))
  else none

/-- Outcome of the JSON recovery of geminiService.ts lines 285-292:
`ok` when a parse succeeded (directly or on the regex match), `notJson`
when the regex did not match (`parsed` stays null and the caller reports
"Model did not return valid JSON"), and `thrown` when the regex matched
but its match failed to parse (the second `JSON.parse` is outside the
try/catch, so the exception escapes). -/
inductive ExtractResult where
  | ok (j : Json)
  | notJson
  | thrown

def extractJson (cs : List Char) : ExtractResult :=
  match parseJson cs with
  | some j => .ok j
  | none =>
    match braceMatch cs with
    | some sub =>
      match parseJson sub with
      | some j => .ok j
      | none => .thrown
    | none => .notJson

/-- The parse step of `parseAndTransformQuizData` (HomePage.tsx lines
312-319): parse, and if the result is itself a string, parse that string
again (double-stringified JSON). -/
def parseQuizJson (cs : List Char) : Option Json :=
  match parseJson cs with
  | some (.str s) => parseJson s
  | r => r

theorem findIdx_eq_length_of_not_mem (p s : List Char)
    (hbo : braceOpenChar ∉ p) (hhead : s.head? = some braceOpenChar) :
    (p ++ s).findIdx (fun c => c = braceOpenChar) = p.length := by
  induction p with
  | nil =>
    cases s with
    | nil => simp at hhead
    | cons a t =>
      have ha : a = braceOpenChar := by simpa using hhead
      subst ha
      simp [List.findIdx_cons]
  | cons a p' ih =>
    have ha : ¬(a = braceOpenChar) := fun h => hbo (h ▸ List.mem_cons_self a p')
    have hih := ih fun h => hbo (List.mem_cons_of_mem a h)
    simp [List.findIdx_cons, ha, hih]

theorem braceMatch_append (p s : List Char) (hbo : braceOpenChar ∉ p)
    (hhead : s.head? = some braceOpenChar) (hlast : s.getLast? = some braceCloseChar) :
    braceMatch (p ++ s) = some s := by
  have hsne : s ≠ [] := by intro h; subst h; simp at hhead
  have hmem : braceOpenChar ∈ p ++ s := by
    cases s with
    | nil => simp at hhead
    | cons a t =>
      have ha : a = braceOpenChar := by simpa using hhead
      exact List.mem_append_right p (ha ▸ List.mem_cons_self a t)
  unfold braceMatch
  rw [if_pos ⟨hmem, by rw [List.getLast?_append_of_ne_nil p hsne]; exact hlast⟩]
  rw [findIdx_eq_length_of_not_mem p s hbo hhead, List.drop_left]

/-- C4 (counterexample): the claim fails on the code. The recovery regex
anchors the match at the end of the text, so a serialized object wrapped
in a fenced code block with leading *and trailing* prose is not recovered:
the regex does not match (the text ends in prose, not in a closing brace)
and the extraction reports invalid JSON even though the payload alone
parses to the original object. -/
theorem extractJson_roundtrip_cx :
    parseJson ("\x7b\"question\":\"Q\"\x7d".data) =
      some (.obj [("question".data, .str "Q".data)]) ∧
    extractJson (("Here you go:\n```json\n\x7b\"question\":\"Q\"\x7d\n```\nEnjoy!").data) =
      .notJson :=
  ⟨rfl, rfl⟩

/-- C4 (amended): the recovery succeeds exactly on payloads that reach
the end of the raw text: if direct parsing fails, the prose before the
payload contains no opening brace, and the payload (starting with an
opening brace and ending the text with a closing brace) parses to `j`,
then the extraction recovers `j`; and the quiz-file parse step tolerates
double-encoded JSON (a payload that is a JSON string whose contents are
JSON-encoded again). Trailing prose after the payload defeats the
recovery (see the counterexample). -/
theorem extractJson_recovery :
    (∀ (p s : List Char) (j : Json),
      parseJson (p ++ s) = none →
      braceOpenChar ∉ p →
      s.head? = some braceOpenChar →
      s.getLast? = some braceCloseChar →
      parseJson s = some j →
      extractJson (p ++ s) = .ok j) ∧
    (∀ (cs inner : List Char) (j : Json),
      parseJson cs = some (.str inner) →
      parseJson inner = some j →
      parseQuizJson cs = some j) := by
  constructor
  · intro p s j hfail hbo hhead hlast hs
    unfold extractJson
    rw [hfail, braceMatch_append p s hbo hhead hlast]
    dsimp only
    rw [hs]
  · intro cs inner j h1 h2
    unfold parseQuizJson
    rw [h1]
    exact h2

theorem extractJson_recovery_witness :
    extractJson ("Sure: ".data ++ "\x7b\"a\":1\x7d".data) = .ok (.obj [("a".data, .num 1)]) ∧
    parseQuizJson ("\"\\\"hello\\\"\"".data) = some (.str "hello".data) :=
  ⟨extractJson_recovery.1 "Sure: ".data "\x7b\"a\":1\x7d".data (.obj [("a".data, .num 1)])
      rfl (by decide) rfl rfl rfl,
   extractJson_recovery.2 ("\"\\\"hello\\\"\"".data) ("\"hello\"".data)
      (.str "hello".data) rfl rfl⟩

/-!
Generated-content contract validation (`geminiService.ts`, revision of
`validateSources` at lines 220-256). Retrieval snippets and generated
candidates are typed records; the numeric metadata (`id`, `score`) that
the validator never reads is omitted. Failures are `Except.error` with
the reason string of the source ({ok:false, reason}); success is
`Except.ok ()` ({ok:true}).
-/

/-- A retrieval snippet (the fields the validator reads). -/
structure Snippet where
  docId : String
  chapter : Option String
  page : Option Int
  snippet : String

/-- An entry of a candidate's `sources` array. -/
structure SourceRef where
  docId : String
  chapter : Option String
  page : Option Int

/-- The candidate object produced by the model (`GeneratedQuestion`). -/
structure GeneratedQuestion where
  question : String
  options : List String
  answer_keys : List String
  isMultipleChoice : Bool
  explanation : String
  sources : List SourceRef

/-- The whitespace class of the JavaScript regex `\s` (the common
members; exotic unicode spaces are not needed by the claims). -/
def jsWsChar (c : Char) : Bool :=
  c = ' ' || c = '\t' || c = '\n' || c = '\r' || c = Char.ofNat 12 || c = Char.ofNat 11

/-- Replace each maximal whitespace run by a single space
(`.replace(/\s+/g, " ")`). -/
def collapseWs : List Char → List Char
  | [] => []
  | [c] => if jsWsChar c then [' '] else [c]
  | c :: c2 :: cs =>
    if jsWsChar c then
      if jsWsChar c2 then collapseWs (c2 :: cs)
      else ' ' :: collapseWs (c2 :: cs)
    else c :: collapseWs (c2 :: cs)

/-- `norm` (geminiService.ts lines 216-218):
`String(v ?? "").trim().replace(/\s+/g, " ").toLowerCase()`. -/
def norm (s : String) : String :=
  ⟨(collapseWs ((s.data.dropWhile jsWsChar).reverse.dropWhile jsWsChar).reverse).map
    Char.toLower⟩

/-- The `docId|chapter|page` membership key (norm applied to the two text
fields; a numeric page is printed, a missing one becomes empty). -/
def sourceKey (docId : String) (chapter : Option String) (page : Option Int) : String :=
  norm docId ++ "|" ++ norm (chapter.getD "") ++ "|" ++
    (match page with
     | some n => toString n
     | none => "")

/-- The per-source loop of `validateSources`: each cited source must be
in the allowed set, either with its page or with the page blanked
("tolera page null"); the first offender aborts with its identity. -/
def checkSources (allowed : List String) : List SourceRef → Except String Unit
  | [] => .ok ()
  | src :: rest =>
    if allowed.contains (sourceKey src.docId src.chapter src.page) ||
        allowed.contains (sourceKey src.docId src.chapter none) then
      checkSources allowed rest
    else .error ("Source not in context: " ++ src.docId)

def keyCharIndex (c : Char) : Nat := c.toNat - 65

/-- The per-key loop of `validateSources` (lines 243-249): each key must
match `/^[A-F]$/` and its index `charCodeAt(0) - 65` must fall inside the
options list. -/
def checkKeys (optionsLen : Nat) : List String → Except String Unit
  | [] => .ok ()
  | key :: rest =>
    match key.data with
    | [c] =>
      if 'A' ≤ c ∧ c ≤ 'F' then
        if optionsLen ≤ keyCharIndex c then
          .error ("Answer key '" ++ key ++ "' is out of bounds for the given options.")
        else checkKeys optionsLen rest
      else .error ("Invalid answer key format: " ++ key)
    | _ => .error ("Invalid answer key format: " ++ key)

/-- `validateSources` (geminiService.ts lines 220-256). -/
def validateSources (snippets : List Snippet) (out : GeneratedQuestion) :
    Except String Unit :=
  if out.sources.length = 0 then .error "No sources in output."
  else
    match checkSources (snippets.map fun s => sourceKey s.docId s.chapter s.page)
        out.sources with
    | .error r => .error r
    | .ok _ =>
      if out.answer_keys.length = 0 then .error "Answer keys must be a non-empty array."
      else if out.options.length < 4 then .error "Must provide at least 4 options."
      else
        match checkKeys out.options.length out.answer_keys with
        | .error r => .error r
        | .ok _ =>
          if out.isMultipleChoice = false ∧ 1 < out.answer_keys.length then
            .error "isMultipleChoice is false but multiple answers were provided."
          else .ok ()

def toLowerChars (cs : List Char) : List Char := cs.map Char.toLower

def startsWithL : List Char → List Char → Bool
  | [], _ => true
  | _ :: _, [] => false
  | p :: ps, t :: ts => p = t && startsWithL ps ts

def hasSubL (pat : List Char) : List Char → Bool
  | [] => startsWithL pat []
  | t :: ts => startsWithL pat (t :: ts) || hasSubL pat ts

/-- The "insufficient data" escape hatch of `generateQuestionFromContext`
(lines 294-297): question and explanation are concatenated, lowered and
searched for the refusal phrase. -/
def insufficientText (q : GeneratedQuestion) : Bool :=
  hasSubL "insufficient data in context".data
    (toLowerChars (q.question.data ++ " ".data ++ q.explanation.data))

/-- The acceptance decision applied to a parsed candidate
(`generateQuestionFromContext` lines 294-302): refuse on the escape
phrase, refuse on a failed contract validation, otherwise hand the
candidate on as question data. -/
def acceptParsed (snippets : List Snippet) (parsed : GeneratedQuestion) :
    Option GeneratedQuestion :=
  if insufficientText parsed then none
  else
    match validateSources snippets parsed with
    | .ok _ => some parsed
    | .error _ => none

theorem validateSources_ok_inversion (snippets : List Snippet) (out : GeneratedQuestion)
    (h : validateSources snippets out = .ok ()) :
    out.answer_keys.length ≠ 0 ∧
    4 ≤ out.options.length ∧
    checkKeys out.options.length out.answer_keys = .ok () ∧
    ¬(out.isMultipleChoice = false ∧ 1 < out.answer_keys.length) := by
  unfold validateSources at h
  split at h
  · exact absurd h (by simp)
  · split at h
    · exact absurd h (by simp)
    · split at h
      · exact absurd h (by simp)
      · rename_i hkeys
        split at h
        · exact absurd h (by simp)
        · rename_i hopts
          split at h
          · exact absurd h (by simp)
          · rename_i u2 hck
            split at h
            · exact absurd h (by simp)
            · rename_i hmc
              exact ⟨hkeys, by omega, by rw [hck], hmc⟩

theorem checkKeys_ok_no_oob (n : Nat) : ∀ (keys : List String),
    checkKeys n keys = .ok () →
    ∀ k ∈ keys, ∀ c : Char, k.data = [c] → n ≤ keyCharIndex c → False := by
  intro keys
  induction keys with
  | nil => intro _ k hk; simp at hk
  | cons key rest ih =>
    intro h k hk c hc hn
    have hrest : checkKeys n rest = .ok () ∧ (k = key → False) := by
      simp only [checkKeys] at h
      split at h
      · rename_i c' hcd
        split at h
        · split at h
          · exact absurd h (by simp)
          · rename_i hoob
            refine ⟨h, fun hkk => ?_⟩
            subst hkk
            rw [hcd] at hc
            injection hc with hc1 _
            subst hc1
            exact hoob hn
        · exact absurd h (by simp)
      · rename_i hshape
        rcases List.mem_cons.mp hk with rfl | _
        · exact absurd h (by simp)
        · exact absurd h (by simp)
    rcases List.mem_cons.mp hk with rfl | hmem
    · exact hrest.2 rfl
    · exact ih hrest.1 k hmem c hc hn

/-- C5: a candidate whose `answer_keys` contains a letter whose option
index lies beyond the options list is rejected: validation never
succeeds, the candidate is never handed on as a question, and when the
key loop reaches such a key first it fails naming that key. -/
theorem validate_rejects_out_of_range (snippets : List Snippet) (out : GeneratedQuestion)
    (k : String) (c : Char) (hk : k ∈ out.answer_keys) (hc : k.data = [c])
    (hA : 'A' ≤ c) (hF : c ≤ 'F') (hidx : out.options.length ≤ keyCharIndex c) :
    validateSources snippets out ≠ .ok () ∧
    acceptParsed snippets out = none ∧
    ∀ rest, checkKeys out.options.length (k :: rest) =
      .error ("Answer key '" ++ k ++ "' is out of bounds for the given options.") := by
  have hne : validateSources snippets out ≠ .ok () := by
    intro hok
    obtain ⟨_, _, hck, _⟩ := validateSources_ok_inversion snippets out hok
    exact checkKeys_ok_no_oob out.options.length out.answer_keys hck k hk c hc hidx
  refine ⟨hne, ?_, ?_⟩
  · unfold acceptParsed
    split
    · rfl
    · cases hval : validateSources snippets out with
      | ok u => exact absurd hval hne
      | error r => rfl
  · intro rest
    simp only [checkKeys, hc]
    rw [if_pos ⟨hA, hF⟩, if_pos hidx]

/-- C6: validation passes only with a non-empty answer-key list, and with
`isMultipleChoice: false` only with exactly one answer key (so two keys
with the flag false are rejected). -/
theorem validate_single_answer (snippets : List Snippet) (out : GeneratedQuestion)
    (h : validateSources snippets out = .ok ()) :
    out.answer_keys ≠ [] ∧
    (out.isMultipleChoice = false → out.answer_keys.length = 1) := by
  obtain ⟨hne, _, _, hmc⟩ := validateSources_ok_inversion snippets out h
  refine ⟨fun he => hne (by rw [he]; rfl), fun hmcf => ?_⟩
  have h1 : ¬(1 < out.answer_keys.length) := fun hlt => hmc ⟨hmcf, hlt⟩
  have h2 : out.answer_keys.length ≠ 0 := hne
  omega

def snippetW : Snippet := ⟨"Doc1", none, none, "some retrieved text"⟩

def candidateOkW : GeneratedQuestion :=
  ⟨"Q", ["A) a", "B) b", "C) c", "D) d"], ["A"], false, "E", [⟨"Doc1", none, none⟩]⟩

def candidateOobW : GeneratedQuestion :=
  ⟨"Q", ["A) a", "B) b", "C) c", "D) d"], ["E"], true, "expl", [⟨"Doc1", none, none⟩]⟩

theorem validate_rejects_out_of_range_witness :
    validateSources [snippetW] candidateOobW ≠ .ok () ∧
    acceptParsed [snippetW] candidateOobW = none ∧
    checkKeys candidateOobW.options.length ["E"] =
      .error "Answer key 'E' is out of bounds for the given options." := by
  have h := validate_rejects_out_of_range [snippetW] candidateOobW "E" 'E'
    (by decide) rfl (by decide) (by decide) (by decide)
  exact ⟨h.1, h.2.1, h.2.2 []⟩

theorem validate_single_answer_witness :
    candidateOkW.answer_keys ≠ [] ∧ candidateOkW.answer_keys.length = 1 :=
  ⟨(validate_single_answer [snippetW] candidateOkW rfl).1,
   (validate_single_answer [snippetW] candidateOkW rfl).2 rfl⟩

/-!
Data model of `types.ts`: difficulty levels, run modes, the canonical
`Question` entity (its numeric `id` is the field `ident`), quiz results
and settings.
-/

inductive Difficulty where
  | facil
  | medio
  | dificil
deriving DecidableEq

inductive QuizMode where
  | practice
  | timed
  | timed_half
  | assessment
deriving DecidableEq

/-- `correctAnswer: string | string[]`. -/
inductive CorrectAnswer where
  | one (s : String)
  | many (l : List String)
deriving DecidableEq

structure Question where
  ident : Int
  question : String
  options : List String
  correctAnswer : CorrectAnswer
  isMultipleChoice : Option Bool
  difficulty : Difficulty
  explanation : Option String
  topic : String
deriving DecidableEq

structure QuizSettings where
  topics : List String
  difficulty : List Difficulty
  numberOfQuestions : Int
  mode : QuizMode

structure QuizResult where
  question : Question
  userAnswer : List String
  isCorrect : Bool
  timeSpentOnQuestion : Int

/-!
Answer grading (`submitAnswer` in `CourseContext.tsx`, lines 41-51).
The JavaScript default sort compares strings by code units; it is
modelled by `List.insertionSort` under the lexicographic string order.
-/

/-- `Array.isArray(correctAnswer) ? correctAnswer : [correctAnswer]`. -/
def correctAnswersOf (q : Question) : List String :=
  match q.correctAnswer with
  | .one s => [s]
  | .many l => l

def jsSortStrings (l : List String) : List String :=
  List.insertionSort (fun a b : String => a ≤ b) l

/-- The grading of `submitAnswer`: sort both answer lists, then compare
lengths and compare element-wise. -/
def submitAnswerIsCorrect (q : Question) (userAnswer : List String) : Bool :=
  let sortedCorrect := jsSortStrings (correctAnswersOf q)
  let sortedUser := jsSortStrings userAnswer
  decide (sortedCorrect.length = sortedUser.length) &&
    (sortedCorrect.zip sortedUser).all fun p => p.1 == p.2

/-- `submitAnswer` appends one immutable result record carrying the
derived correctness. -/
def submitAnswer (q : Question) (userAnswer : List String) (timeSpent : Int)
    (results : List QuizResult) : List QuizResult :=
  results ++ [⟨q, userAnswer, submitAnswerIsCorrect q userAnswer, timeSpent⟩]

/-!
History persistence (`useQuizHistory.ts`).
-/

def MAX_HISTORY_ITEMS : Nat := 50

/-- The lean stored result (`LeanQuizResult`): correctness only. -/
structure LeanQuizResult where
  isCorrect : Bool

structure QuizHistoryItem where
  settings : QuizSettings
  results : List LeanQuizResult
  date : String
  timeTaken : Option Int

/-- `saveQuizToHistory` (lines 59-69): prepend the new item and keep the
first `MAX_HISTORY_ITEMS` entries. -/
def saveQuizToHistory (item : QuizHistoryItem) (prevHistory : List QuizHistoryItem) :
    List QuizHistoryItem :=
  (item :: prevHistory).take MAX_HISTORY_ITEMS

/-!
`generateQuestions` (geminiService.ts lines 309-384), object-argument
form. The retrieval happens once; then one model call is made per
requested question, sequentially, and any per-iteration failure (invalid
JSON, the refusal phrase, or contract violation) aborts the whole call.
The per-iteration pipeline outcome depends on the remote model's text,
so it enters the model as an oracle from the iteration index to an
`Except`; the count arithmetic and the loop are embedded directly.
-/

structure GenArgs where
  topic : String
  chapter : Option String
  k : Option Int
  difficulty : Option String
  count : Option Int
  alignWithExam : Option Bool

/-- `count = Math.max(1, Math.min(10, arg1.count ?? 1))` (line 346). -/
def clampCount (count : Option Int) : Int :=
  max 1 (min 10 (count.getD 1))

/-- The sequential generation loop: iterations run in order and the
first failing iteration aborts the call with its reason. -/
def genLoop (step : Nat → Except String GeneratedQuestion) :
    Nat → Except String (List GeneratedQuestion)
  | 0 => .ok []
  | n + 1 =>
    match genLoop step n with
    | .error r => .error r
    | .ok results =>
      match step n with
      | .error r => .error r
      | .ok q => .ok (results ++ [q])

def generateQuestionsObj (snippets : List Snippet)
    (step : Nat → Except String GeneratedQuestion) (args : GenArgs) :
    Except String (List GeneratedQuestion) :=
  if snippets.length = 0 then .error "No snippets found for topic."
  else genLoop step (clampCount args.count).toNat

theorem lengthZipAll_eq_iff : ∀ (a b : List String),
    ((decide (a.length = b.length)) && (a.zip b).all fun p => p.1 == p.2) = true ↔ a = b := by
  intro a
  induction a with
  | nil =>
    intro b
    cases b with
    | nil => simp
    | cons y ys => simp
  | cons x xs ih =>
    intro b
    cases b with
    | nil => simp
    | cons y ys =>
      rw [List.zip_cons_cons]
      simp only [List.all_cons, Bool.and_eq_true, decide_eq_true_eq, beq_iff_eq,
        List.length_cons, Nat.add_right_cancel_iff, List.cons.injEq]
      constructor
      · rintro ⟨hlen, hxy, hall⟩
        refine ⟨hxy, (ih ys).mp ?_⟩
        simp [hlen, hall]
      · rintro ⟨hxy, rfl⟩
        have h2 := (ih xs).mpr rfl
        simp only [Bool.and_eq_true, decide_eq_true_eq] at h2
        exact ⟨rfl, hxy, h2.2⟩

/-- C9: grading is order-insensitive exact matching: `submitAnswer`
records `isCorrect = true` exactly when the sorted user answers equal the
sorted correct answers (equivalently, when the user's list is a
permutation of the correct list); lists of different length (strict
subsets and supersets included) grade incorrect. -/
theorem submitAnswer_grading (q : Question) (ua : List String) :
    (submitAnswerIsCorrect q ua = true ↔
      jsSortStrings ua = jsSortStrings (correctAnswersOf q)) ∧
    (submitAnswerIsCorrect q ua = true ↔ ua.Perm (correctAnswersOf q)) ∧
    (ua.length ≠ (correctAnswersOf q).length → submitAnswerIsCorrect q ua = false) ∧
    (∀ (results : List QuizResult) (t : Int),
      (submitAnswer q ua t results).map QuizResult.isCorrect =
        results.map QuizResult.isCorrect ++ [submitAnswerIsCorrect q ua]) := by
  have hperm : ∀ l : List String, (jsSortStrings l).Perm l :=
    fun l => List.perm_insertionSort _ l
  have h1 : submitAnswerIsCorrect q ua = true ↔
      jsSortStrings (correctAnswersOf q) = jsSortStrings ua := by
    unfold submitAnswerIsCorrect
    exact lengthZipAll_eq_iff _ _
  have hiff2 : submitAnswerIsCorrect q ua = true ↔ ua.Perm (correctAnswersOf q) := by
    rw [h1]
    constructor
    · intro he
      have hu : ua.Perm (jsSortStrings ua) := (hperm ua).symm
      rw [← he] at hu
      exact hu.trans (hperm _)
    · intro hp
      exact List.eq_of_perm_of_sorted
        (((hperm (correctAnswersOf q)).trans hp.symm).trans (hperm ua).symm)
        (List.sorted_insertionSort _ _) (List.sorted_insertionSort _ _)
  refine ⟨by rw [h1]; exact eq_comm, hiff2, ?_, ?_⟩
  · intro hne
    cases hval : submitAnswerIsCorrect q ua with
    | false => rfl
    | true => exact absurd (hiff2.mp hval).length_eq hne
  · intro results t
    simp [submitAnswer]

def questionW : Question :=
  ⟨0, "Q", ["x", "y", "z", "w"], .many ["x", "y"], some true, .medio, none,
    "1.1. What is sustainability?"⟩

theorem submitAnswer_grading_witness :
    submitAnswerIsCorrect questionW ["x"] = false ∧
    (submitAnswer questionW ["x"] 3 []).map QuizResult.isCorrect =
      [submitAnswerIsCorrect questionW ["x"]] :=
  ⟨(submitAnswer_grading questionW ["x"]).2.2.1 (by decide),
   by simpa using (submitAnswer_grading questionW ["x"]).2.2.2 [] 3⟩

/-- C8: saving on top of a full history keeps exactly
`MAX_HISTORY_ITEMS` entries: the new item goes first and the oldest
entry is evicted. -/
theorem history_cap (item : QuizHistoryItem) (prev : List QuizHistoryItem)
    (h : prev.length = MAX_HISTORY_ITEMS) :
    (saveQuizToHistory item prev).length = MAX_HISTORY_ITEMS ∧
    saveQuizToHistory item prev = item :: prev.dropLast := by
  constructor
  · unfold saveQuizToHistory
    rw [List.length_take, List.length_cons, h]
    decide
  · unfold saveQuizToHistory MAX_HISTORY_ITEMS
    rw [show (50 : Nat) = 49 + 1 from rfl, List.take_succ_cons, List.dropLast_eq_take, h]
    rfl

def historyItemW : QuizHistoryItem :=
  ⟨⟨["1.1. What is sustainability?"], [.medio], 10, .practice⟩, [⟨true⟩], "2026-01-01", none⟩

theorem history_cap_witness :
    (saveQuizToHistory historyItemW (List.replicate 50 historyItemW)).length =
      MAX_HISTORY_ITEMS ∧
    saveQuizToHistory historyItemW (List.replicate 50 historyItemW) =
      historyItemW :: (List.replicate 50 historyItemW).dropLast :=
  history_cap historyItemW (List.replicate 50 historyItemW) (by simp [MAX_HISTORY_ITEMS])

theorem genLoop_length (step : Nat → Except String GeneratedQuestion) :
    ∀ (n : Nat) (res : List GeneratedQuestion), genLoop step n = .ok res → res.length = n := by
  intro n
  induction n with
  | zero =>
    intro res h
    simp only [genLoop] at h
    injection h with h
    rw [← h]
    rfl
  | succ m ih =>
    intro res h
    simp only [genLoop] at h
    split at h
    · exact absurd h (by simp)
    · rename_i results heq
      split at h
      · exact absurd h (by simp)
      · rename_i q heq2
        injection h with h
        rw [← h]
        simp [ih results heq]

/-- C10: the requested question count is clamped to [1, 10] before
generation, so a successful object-argument call returns between 1 and
10 questions (exactly the clamped count), regardless of the count the
caller supplied. -/
theorem generateQuestions_count_clamp (snippets : List Snippet)
    (step : Nat → Except String GeneratedQuestion) (args : GenArgs)
    (res : List GeneratedQuestion)
    (h : generateQuestionsObj snippets step args = .ok res) :
    res.length = (clampCount args.count).toNat ∧
    1 ≤ res.length ∧ res.length ≤ 10 := by
  unfold generateQuestionsObj at h
  split at h
  · exact absurd h (by simp)
  · have hl := genLoop_length step _ res h
    have h1 : (1 : Int) ≤ clampCount args.count := le_max_left _ _
    have h2 : clampCount args.count ≤ 10 :=
      max_le (by norm_num) (min_le_left _ _)
    exact ⟨hl, by omega, by omega⟩

def genArgsW : GenArgs :=
  ⟨"1.1. What is sustainability?", none, none, some "medium", some 25, some true⟩

theorem generateQuestions_count_clamp_witness :
    (List.replicate 10 candidateOkW).length = (clampCount genArgsW.count).toNat ∧
    1 ≤ (List.replicate 10 candidateOkW).length ∧
    (List.replicate 10 candidateOkW).length ≤ 10 :=
  generateQuestions_count_clamp [snippetW] (fun _ => .ok candidateOkW) genArgsW
    (List.replicate 10 candidateOkW) (by rfl)

/-!
Assessment question-bank selector (`handleStartAssessmentQuiz`,
HomePage.tsx lines 321-394). The in-place random shuffles
(`.sort(() => 0.5 - Math.random())`) are nondeterministic, so the
selection is parameterised by the per-part shuffle and the final shuffle;
the theorems assume only that each shuffle permutes its input. The
insufficient-pool error message of the source interpolates the counts;
it is modelled by a fixed text.
-/

def ASSESSMENT_QUESTIONS : Nat := 40

/-- The fixed percentage distribution (lines 357-362), with each part's
percentage kept as its numerator over 100 (0.15 and 0.35). -/
def assessmentDistribution : List (String × Nat) :=
  [("part-i", 15), ("part-ii", 35), ("part-iii", 15), ("part-iv", 35)]

/-- `Math.round(ASSESSMENT_QUESTIONS * percentage)`: round-half-up of the
exact product `total * pct / 100` (the two products are far enough from
a half for double arithmetic to round identically). -/
def partQuota (pctNum : Nat) : Nat :=
  (ASSESSMENT_QUESTIONS * pctNum + 50) / 100

/-- Step 2 of the algorithm: bucket the pool by curriculum part (a
question whose topic maps to no part, or to an unknown part id, is
dropped). -/
def categorize (partOf : String → Option String) (allQuestions : List Question)
    (p : String) : List Question :=
  allQuestions.filter fun q => partOf q.topic = some p

/-- One part's pick (lines 364-374): when the bucket is smaller than the
quota take all of it (logged shortfall, non-fatal), otherwise take a
quota-sized sample of the shuffled bucket. -/
def partPick (shuffleP : String → List Question → List Question) (p : String)
    (count : Nat) (pool : List Question) : List Question :=
  if pool.length < count then pool else (shuffleP p pool).take count

/-- The selection core of `handleStartAssessmentQuiz`: reject pools
smaller than the target, pick per part following the distribution,
shuffle the union and trim to the target. There is no backfill step. -/
def selectAssessment (partOf : String → Option String)
    (shuffleP : String → List Question → List Question)
    (shuffleF : List Question → List Question)
    (allQuestions : List Question) : Except String (List Question) :=
  if allQuestions.length < ASSESSMENT_QUESTIONS then
    .error "Not enough questions."
  else
    let selected := assessmentDistribution.foldl
      (fun acc pr =>
        acc ++ partPick shuffleP pr.1 (partQuota pr.2) (categorize partOf allQuestions pr.1))
      []
    .ok ((shuffleF selected).take ASSESSMENT_QUESTIONS)

theorem partPick_mem (shuffleP : String → List Question → List Question)
    (hP : ∀ p l, (shuffleP p l).Perm l) (p : String) (count : Nat)
    (pool : List Question) (q : Question) (hq : q ∈ partPick shuffleP p count pool) :
    q ∈ pool := by
  unfold partPick at hq
  split at hq
  · exact hq
  · exact (hP p pool).mem_iff.mp (List.take_subset _ _ hq)

theorem partPick_length (shuffleP : String → List Question → List Question)
    (hP : ∀ p l, (shuffleP p l).Perm l) (p : String) (count : Nat)
    (pool : List Question) :
    (partPick shuffleP p count pool).length = min pool.length count := by
  unfold partPick
  split
  · omega
  · rw [List.length_take, (hP p pool).length_eq]
    omega

theorem partPick_nodup (shuffleP : String → List Question → List Question)
    (hP : ∀ p l, (shuffleP p l).Perm l) (p : String) (count : Nat)
    (pool : List Question) (h : (pool.map Question.ident).Nodup) :
    ((partPick shuffleP p count pool).map Question.ident).Nodup := by
  unfold partPick
  split
  · exact h
  · have hnd : ((shuffleP p pool).map Question.ident).Nodup :=
      ((hP p pool).map _).nodup_iff.mpr h
    exact List.Nodup.sublist ((List.take_sublist _ _).map _) hnd

theorem categorize_subset (partOf : String → Option String) (pool : List Question)
    (p : String) (q : Question) (h : q ∈ categorize partOf pool p) : q ∈ pool :=
  List.mem_of_mem_filter h

theorem categorize_part (partOf : String → Option String) (pool : List Question)
    (p : String) (q : Question) (h : q ∈ categorize partOf pool p) :
    partOf q.topic = some p := by
  have h2 := (List.mem_filter.mp h).2
  simpa using h2

theorem categorize_nodup (partOf : String → Option String) (pool : List Question)
    (p : String) (h : (pool.map Question.ident).Nodup) :
    ((categorize partOf pool p).map Question.ident).Nodup :=
  List.Nodup.sublist ((List.filter_sublist _).map _) h

theorem parts_disjoint_ids (partOf : String → Option String) (pool : List Question)
    (hnd : (pool.map Question.ident).Nodup) (p1 p2 : String) (hne : p1 ≠ p2)
    (A B : List Question)
    (hA : ∀ q ∈ A, q ∈ categorize partOf pool p1)
    (hB : ∀ q ∈ B, q ∈ categorize partOf pool p2) :
    List.Disjoint (A.map Question.ident) (B.map Question.ident) := by
  intro i hiA hiB
  obtain ⟨qa, hqa, rfl⟩ := List.mem_map.mp hiA
  obtain ⟨qb, hqb, hEq⟩ := List.mem_map.mp hiB
  have hqa2 := hA qa hqa
  have hqb2 := hB qb hqb
  have heq2 : qb = qa :=
    List.inj_on_of_nodup_map hnd (categorize_subset partOf pool p2 qb hqb2)
      (categorize_subset partOf pool p1 qa hqa2) hEq
  subst heq2
  have h1 := categorize_part partOf pool p1 _ hqa2
  have h2 := categorize_part partOf pool p2 _ hqb2
  rw [h1] at h2
  injection h2 with h3
  exact hne h3

/-- C3 (amended): for every question pool, part lookup and
permutation-shuffles, a successful assessment selection has size
`min(40, Σ_part min(|bucket_part|, quota_part))` — there is no backfill,
so a part with a small or empty bucket shrinks the result below the
claimed `min(40, poolSize)` — and every selected question is drawn from
the pool without duplication (by the identity `id` field). -/
theorem assessment_selector (partOf : String → Option String)
    (shuffleP : String → List Question → List Question)
    (shuffleF : List Question → List Question)
    (hP : ∀ p l, (shuffleP p l).Perm l)
    (hF : ∀ l, (shuffleF l).Perm l)
    (pool : List Question) (res : List Question)
    (h : selectAssessment partOf shuffleP shuffleF pool = .ok res) :
    res.length = min ASSESSMENT_QUESTIONS
      ((assessmentDistribution.map fun pr =>
        min (categorize partOf pool pr.1).length (partQuota pr.2)).sum) ∧
    (∀ q ∈ res, q ∈ pool) ∧
    ((pool.map Question.ident).Nodup → (res.map Question.ident).Nodup) := by
  unfold selectAssessment at h
  split at h
  · exact absurd h (by simp)
  · injection h with h
    subst h
    have hsel : assessmentDistribution.foldl
        (fun acc pr => acc ++ partPick shuffleP pr.1 (partQuota pr.2)
          (categorize partOf pool pr.1)) [] =
        partPick shuffleP "part-i" (partQuota 15) (categorize partOf pool "part-i") ++
          partPick shuffleP "part-ii" (partQuota 35) (categorize partOf pool "part-ii") ++
          partPick shuffleP "part-iii" (partQuota 15) (categorize partOf pool "part-iii") ++
          partPick shuffleP "part-iv" (partQuota 35) (categorize partOf pool "part-iv") := by
      simp [assessmentDistribution]
    rw [hsel]
    set A1 := partPick shuffleP "part-i" (partQuota 15) (categorize partOf pool "part-i")
      with hA1
    set A2 := partPick shuffleP "part-ii" (partQuota 35) (categorize partOf pool "part-ii")
      with hA2
    set A3 := partPick shuffleP "part-iii" (partQuota 15) (categorize partOf pool "part-iii")
      with hA3
    set A4 := partPick shuffleP "part-iv" (partQuota 35) (categorize partOf pool "part-iv")
      with hA4
    have l1 := partPick_length shuffleP hP "part-i" (partQuota 15)
      (categorize partOf pool "part-i")
    have l2 := partPick_length shuffleP hP "part-ii" (partQuota 35)
      (categorize partOf pool "part-ii")
    have l3 := partPick_length shuffleP hP "part-iii" (partQuota 15)
      (categorize partOf pool "part-iii")
    have l4 := partPick_length shuffleP hP "part-iv" (partQuota 35)
      (categorize partOf pool "part-iv")
    refine ⟨?_, ?_, ?_⟩
    · rw [List.length_take, (hF _).length_eq]
      simp only [List.length_append, ← hA1, ← hA2, ← hA3, ← hA4, l1, l2, l3, l4,
        assessmentDistribution, List.map_cons, List.map_nil, List.sum_cons, List.sum_nil]
      omega
    · intro q hq
      have hq2 : q ∈ A1 ++ A2 ++ A3 ++ A4 :=
        (hF _).mem_iff.mp (List.take_subset _ _ hq)
      simp only [List.mem_append] at hq2
      rcases hq2 with ((h1 | h2) | h3) | h4
      · exact categorize_subset partOf pool _ q (partPick_mem shuffleP hP _ _ _ q h1)
      · exact categorize_subset partOf pool _ q (partPick_mem shuffleP hP _ _ _ q h2)
      · exact categorize_subset partOf pool _ q (partPick_mem shuffleP hP _ _ _ q h3)
      · exact categorize_subset partOf pool _ q (partPick_mem shuffleP hP _ _ _ q h4)
    · intro hnd
      have n1 := partPick_nodup shuffleP hP "part-i" (partQuota 15) _
        (categorize_nodup partOf pool "part-i" hnd)
      have n2 := partPick_nodup shuffleP hP "part-ii" (partQuota 35) _
        (categorize_nodup partOf pool "part-ii" hnd)
      have n3 := partPick_nodup shuffleP hP "part-iii" (partQuota 15) _
        (categorize_nodup partOf pool "part-iii" hnd)
      have n4 := partPick_nodup shuffleP hP "part-iv" (partQuota 35) _
        (categorize_nodup partOf pool "part-iv" hnd)
      have hmemi : ∀ q ∈ A1, q ∈ categorize partOf pool "part-i" :=
        fun q hq => partPick_mem shuffleP hP _ _ _ q hq
      have hmemii : ∀ q ∈ A2, q ∈ categorize partOf pool "part-ii" :=
        fun q hq => partPick_mem shuffleP hP _ _ _ q hq
      have hmemiii : ∀ q ∈ A3, q ∈ categorize partOf pool "part-iii" :=
        fun q hq => partPick_mem shuffleP hP _ _ _ q hq
      have hmemiv : ∀ q ∈ A4, q ∈ categorize partOf pool "part-iv" :=
        fun q hq => partPick_mem shuffleP hP _ _ _ q hq
      have d12 := parts_disjoint_ids partOf pool hnd _ _
        (show "part-i" ≠ "part-ii" by decide) A1 A2 hmemi hmemii
      have d13 := parts_disjoint_ids partOf pool hnd _ _
        (show "part-i" ≠ "part-iii" by decide) A1 A3 hmemi hmemiii
      have d14 := parts_disjoint_ids partOf pool hnd _ _
        (show "part-i" ≠ "part-iv" by decide) A1 A4 hmemi hmemiv
      have d23 := parts_disjoint_ids partOf pool hnd _ _
        (show "part-ii" ≠ "part-iii" by decide) A2 A3 hmemii hmemiii
      have d24 := parts_disjoint_ids partOf pool hnd _ _
        (show "part-ii" ≠ "part-iv" by decide) A2 A4 hmemii hmemiv
      have d34 := parts_disjoint_ids partOf pool hnd _ _
        (show "part-iii" ≠ "part-iv" by decide) A3 A4 hmemiii hmemiv
      have hselnd : (((A1 ++ A2 ++ A3 ++ A4)).map Question.ident).Nodup := by
        simp only [List.map_append]
        refine List.Nodup.append (List.Nodup.append (List.Nodup.append n1 n2 d12) n3 ?_) n4 ?_
        · exact List.disjoint_append_left.mpr ⟨d13, d23⟩
        · exact List.disjoint_append_left.mpr
            ⟨List.disjoint_append_left.mpr ⟨d14, d24⟩, d34⟩
      have hshufnd : ((shuffleF (A1 ++ A2 ++ A3 ++ A4)).map Question.ident).Nodup :=
        ((hF _).map _).nodup_iff.mpr hselnd
      exact List.Nodup.sublist ((List.take_sublist _ _).map _) hshufnd

def mkQuestionCx (i : Nat) (t : String) : Question :=
  ⟨(i : Int), "q", ["A", "B", "C", "D"], .one "A", some false, .medio, none, t⟩

/-- A 70-question pool whose part-iv bucket is empty: 10 questions on a
part-i topic, 50 on a part-ii topic, 10 on a part-iii topic. -/
def cxPool : List Question :=
  ((List.range 10).map fun i => mkQuestionCx i "t1") ++
    ((List.range 50).map fun i => mkQuestionCx (10 + i) "t2") ++
    ((List.range 10).map fun i => mkQuestionCx (60 + i) "t3")

def cxPartOf : String → Option String := fun t =>
  if t = "t1" then some "part-i"
  else if t = "t2" then some "part-ii"
  else if t = "t3" then some "part-iii"
  else none

/-- C3 (counterexample): with the identity permutation as the randomly
drawn shuffle, a 70-question pool whose part-iv bucket is empty yields
only 6 + 14 + 6 + 0 = 26 questions, not `min(40, 70) = 40`: the selector
has no backfill step, so the claimed result size is wrong whenever one
part cannot fill its quota. -/
theorem assessment_size_cx :
    cxPool.length = 70 ∧
    (categorize cxPartOf cxPool "part-iv").length = 0 ∧
    (selectAssessment cxPartOf (fun _ l => l) (fun l => l) cxPool).map List.length =
      .ok 26 ∧
    26 ≠ min 40 cxPool.length :=
  ⟨rfl, rfl, rfl, by decide⟩

def cxResult : List Question :=
  ((selectAssessment cxPartOf (fun _ l => l) (fun l => l) cxPool).toOption).getD []

theorem assessment_selector_witness :
    cxResult.length = min ASSESSMENT_QUESTIONS
      ((assessmentDistribution.map fun pr =>
        min (categorize cxPartOf cxPool pr.1).length (partQuota pr.2)).sum) ∧
    (cxResult.map Question.ident).Nodup :=
  ⟨(assessment_selector cxPartOf (fun _ l => l) (fun l => l)
      (fun _ l => List.Perm.refl l) (fun l => List.Perm.refl l) cxPool cxResult rfl).1,
   (assessment_selector cxPartOf (fun _ l => l) (fun l => l)
      (fun _ l => List.Perm.refl l) (fun l => List.Perm.refl l) cxPool cxResult rfl).2.2
      (by decide)⟩
